import Mathlib

/-!
Verification development for the InstallShield v5/v6 cabinet extractor
(`tools/isextract.py`).

The Python source is shallowly embedded: byte buffers are `List Nat`
(each element one byte), `struct.unpack_from` reads become `Option`-valued
little-endian readers, exceptions become `Except` errors, and the file
system / hash / deflate dependencies of the extractor are abstracted as
explicit function parameters.  Every definition mirrors the corresponding
Python function.
-/

namespace ISCab

/-! ## Byte-Reader: little-endian primitive decoding over an in-memory buffer -/

/-- Read one byte; `none` when out of bounds (Python raises `struct.error`). -/
def readU8? (d : List Nat) (i : Nat) : Option Nat := d.get? i

/-- `struct.unpack_from('<H', d, i)`: 2-byte little-endian read. -/
def readU16LE? (d : List Nat) (i : Nat) : Option Nat :=
  match d.get? i, d.get? (i + 1) with
  | some a, some b => some (a + 256 * b)
  | _, _ => none

/-- `struct.unpack_from('<I', d, i)`: 4-byte little-endian read. -/
def readU32LE? (d : List Nat) (i : Nat) : Option Nat :=
  match d.get? i, d.get? (i + 1), d.get? (i + 2), d.get? (i + 3) with
  | some a, some b, some c, some e =>
      some (a + 256 * b + 65536 * c + 16777216 * e)
  | _, _, _, _ => none

/-- Python slice `d[off : off + n]` (never fails, truncates at buffer end). -/
def sliceBytes (d : List Nat) (off n : Nat) : List Nat := (d.drop off).take n

/-- `CAB_SIGNATURE = 0x28635349` ("ISc("). -/
def CAB_SIGNATURE : Nat := 0x28635349

/-! ## Header Model -/

/-- First 20 bytes of any .hdr or .cab file (`CommonHeader`). -/
structure CommonHeader where
  signature : Nat
  version : Nat
  volumeInfo : Nat
  cabDescriptorOffset : Nat
  cabDescriptorSize : Nat
deriving DecidableEq, Repr

/-- `CommonHeader.__init__`: unpack `<IIIII` at offset 0. -/
def CommonHeader.parse? (d : List Nat) : Option CommonHeader :=
  match readU32LE? d 0, readU32LE? d 4, readU32LE? d 8,
        readU32LE? d 12, readU32LE? d 16 with
  | some s, some v, some vi, some off, some sz => some ⟨s, v, vi, off, sz⟩
  | _, _, _, _, _ => none

/-- `CommonHeader.major_version`: `(self.version >> 12) & 0xF`. -/
def CommonHeader.majorVersion (h : CommonHeader) : Nat :=
  (h.version >>> 12) &&& 0xF

/-- Modelled from the spec sentence "major version = top 4 bits of upper
16 bits" (bits 28-31 of the 32-bit version field); used only to compare
the spec's description against the code's `major_version`. -/
def CommonHeader.specMajorVersion (h : CommonHeader) : Nat :=
  (h.version >>> 28) &&& 0xF

/-- Cabinet descriptor inside the .hdr file (`CabDescriptor.__init__`). -/
structure CabDescriptor where
  fileTableOffset : Nat
  fileTableSize : Nat
  fileTableSize2 : Nat
  directoryCount : Nat
  fileCount : Nat
  fileTableOffset2 : Nat
  fileGroupOffsets : List Nat
  componentOffsets : List Nat
deriving DecidableEq, Repr

/-- `CabDescriptor.__init__`: fixed-offset fields plus the two 71-slot
offset arrays at `+0x3E` and `+0x15A`. -/
def CabDescriptor.parse? (d : List Nat) (base : Nat) : Option CabDescriptor :=
  match readU32LE? d (base + 0x0C), readU32LE? d (base + 0x14),
        readU32LE? d (base + 0x18), readU32LE? d (base + 0x1C),
        readU32LE? d (base + 0x28), readU32LE? d (base + 0x2C),
        (List.range 71).mapM (fun i => readU32LE? d (base + 0x3E + i * 4)),
        (List.range 71).mapM (fun i => readU32LE? d (base + 0x15A + i * 4)) with
  | some fto, some fts, some fts2, some dc, some fc, some fto2, some fgo, some co =>
      some ⟨fto, fts, fts2, dc, fc, fto2, fgo, co⟩
  | _, _, _, _, _, _, _, _ => none

/-- File descriptor for InstallShield v5 (58-byte packed record), together
with the name / directory / index fields that `ISCabinet.__init__` attaches
after parsing. -/
structure FileDescriptor where
  nameOffset : Nat
  directoryIndex : Nat
  flags : Nat
  expandedSize : Nat
  compressedSize : Nat
  dataOffset : Nat
  md5 : List Nat
  name : String := ""
  directory : String := ""
  index : Nat := 0
deriving DecidableEq, Repr

/-- `FileDescriptor.__init__`: fixed-offset unpacks; the 16-byte md5 field
is a Python slice and therefore never fails (it may come back short). -/
def FileDescriptor.parse? (d : List Nat) (off : Nat) : Option FileDescriptor :=
  match readU32LE? d (off + 0x00), readU16LE? d (off + 0x04),
        readU16LE? d (off + 0x08), readU32LE? d (off + 0x0A),
        readU32LE? d (off + 0x0E), readU32LE? d (off + 0x26) with
  | some no, some di, some fl, some es, some cs, some dofs =>
      some { nameOffset := no, directoryIndex := di, flags := fl,
             expandedSize := es, compressedSize := cs, dataOffset := dofs,
             md5 := sliceBytes d (off + 0x2A) 16 }
  | _, _, _, _, _, _ => none

/-- `bool(flags & FILE_COMPRESSED)` with `FILE_COMPRESSED = 4`. -/
def FileDescriptor.isCompressed (fd : FileDescriptor) : Bool := fd.flags.testBit 2

/-- `bool(flags & FILE_INVALID)` with `FILE_INVALID = 8`. -/
def FileDescriptor.isInvalid (fd : FileDescriptor) : Bool := fd.flags.testBit 3

/-- `bool(flags & FILE_SPLIT)` with `FILE_SPLIT = 1`. -/
def FileDescriptor.isSplit (fd : FileDescriptor) : Bool := fd.flags.testBit 0

/-! ## Directory/File Catalog -/

/-- Errors raised while parsing the header (all fatal in Python:
`struct.error`/`ValueError` propagate out of `ISCabinet.__init__`). -/
inductive HdrErr where
  | outOfBounds
  | badSignature
  | noTerminator
deriving DecidableEq, Repr

/-- `bytes.index(b'\x00', i)` on the suffix `l = d.drop i`: position of the
first zero byte at or after `i`, `none` when there is none. -/
def findZeroFrom : List Nat → Nat → Option Nat
  | [], _ => none
  | b :: rest, i => if b = 0 then some i else findZeroFrom rest (i + 1)

/-- `bytes.decode('ascii', errors='replace')`: bytes below 0x80 decode to
themselves, anything else becomes U+FFFD.  Total: decoding never fails. -/
def decodeAsciiReplace (bs : List Nat) : String :=
  ⟨bs.map (fun b => if b < 128 then Char.ofNat b else Char.ofNat 0xFFFD)⟩

/-- `ISCabinet._read_string`: read a null-terminated string at
`ftBase + relOff`; the only failure is a missing terminator
(Python `ValueError` from `bytes.index`). -/
def readString (hdr : List Nat) (ftBase relOff : Nat) : Except HdrErr String :=
  let absOff := ftBase + relOff
  match findZeroFrom (hdr.drop absOff) absOff with
  | none => .error .noTerminator
  | some e => .ok (decodeAsciiReplace ((hdr.drop absOff).take (e - absOff)))

/-- Directory-name pass of `ISCabinet.__init__` (lines building
`self.directories`). -/
def parseDirectories (hdr : List Nat) (ftBase : Nat) (fileTable : List Nat)
    (dirCount : Nat) : Except HdrErr (List String) :=
  (List.range dirCount).mapM (fun i => readString hdr ftBase (fileTable.getD i 0))

/-- The directory-resolution branch of the file pass:
`self.directories[fd.directory_index]` when the index is in range of the
directory list, `""` otherwise. -/
def dirFor (directories : List String) (idx : Nat) : String :=
  if idx < directories.length then directories.getD idx "" else ""

/-- One iteration of the file-descriptor pass of `ISCabinet.__init__`:
parse the record, resolve its name, attach index and directory.  An
out-of-range `directory_index` yields directory `""` and is not an error. -/
def parseOneFile (hdr : List Nat) (ftBase : Nat) (fileTable : List Nat)
    (dirCount : Nat) (directories : List String) (i : Nat) :
    Except HdrErr FileDescriptor :=
  match FileDescriptor.parse? hdr (ftBase + fileTable.getD (dirCount + i) 0) with
  | none => .error .outOfBounds
  | some fd0 =>
    match readString hdr ftBase fd0.nameOffset with
    | .error e => .error e
    | .ok nm =>
      .ok { fd0 with name := nm, index := i, directory := dirFor directories fd0.directoryIndex }

/-- File-descriptor pass of `ISCabinet.__init__` (builds `self.files`). -/
def parseFiles (hdr : List Nat) (ftBase : Nat) (fileTable : List Nat)
    (dirCount : Nat) (directories : List String) (fileCount : Nat) :
    Except HdrErr (List FileDescriptor) :=
  (List.range fileCount).mapM (parseOneFile hdr ftBase fileTable dirCount directories)

/-- File group descriptor (`FileGroupDescriptor`). -/
structure FileGroupDescriptor where
  name : String
  firstFile : Nat
  lastFile : Nat
deriving DecidableEq, Repr

/-- Body of the non-zero-slot branch of `ISCabinet._parse_file_groups`. -/
def parseOneGroup (hdr : List Nat) (cdBase fgOff : Nat) :
    Except HdrErr FileGroupDescriptor :=
  let olBase := cdBase + fgOff
  match readU32LE? hdr olBase, readU32LE? hdr (olBase + 4) with
  | some nameOff, some descOff =>
    match findZeroFrom (hdr.drop (cdBase + nameOff)) (cdBase + nameOff) with
    | none => .error .noTerminator
    | some e =>
      let groupName :=
        decodeAsciiReplace ((hdr.drop (cdBase + nameOff)).take (e - (cdBase + nameOff)))
      match readU32LE? hdr (cdBase + descOff + 0x4C),
            readU32LE? hdr (cdBase + descOff + 0x50) with
      | some ff, some lf => .ok ⟨groupName, ff, lf⟩
      | _, _ => .error .outOfBounds
  | _, _ => .error .outOfBounds

/-- `ISCabinet._parse_file_groups`: zero slots in the 71-entry offset
array are skipped, the rest are parsed in order. -/
def parseFileGroups (hdr : List Nat) (cdBase : Nat) (fgOffsets : List Nat) :
    Except HdrErr (List FileGroupDescriptor) :=
  (fgOffsets.filter (fun o => o ≠ 0)).mapM (parseOneGroup hdr cdBase)

/-- The parsed catalog: everything `ISCabinet.__init__` stores. -/
structure Catalog where
  common : CommonHeader
  cabDesc : CabDescriptor
  ftBase : Nat
  fileTable : List Nat
  directories : List String
  files : List FileDescriptor
  fileGroups : List FileGroupDescriptor
deriving DecidableEq, Repr

/-- `ISCabinet.__init__` on an in-memory header buffer: common header,
signature check, cab descriptor, file table, directories, files, groups.
Any failure aborts with no catalog. -/
def catalogInit (hdr : List Nat) : Except HdrErr Catalog :=
  match CommonHeader.parse? hdr with
  | none => .error .outOfBounds
  | some common =>
    if common.signature ≠ CAB_SIGNATURE then .error .badSignature
    else
      match CabDescriptor.parse? hdr common.cabDescriptorOffset with
      | none => .error .outOfBounds
      | some cabDesc =>
        let ftBase := common.cabDescriptorOffset + cabDesc.fileTableOffset
        let totalEntries := cabDesc.directoryCount + cabDesc.fileCount
        match (List.range totalEntries).mapM (fun i => readU32LE? hdr (ftBase + i * 4)) with
        | none => .error .outOfBounds
        | some fileTable =>
          match parseDirectories hdr ftBase fileTable cabDesc.directoryCount with
          | .error e => .error e
          | .ok directories =>
            match parseFiles hdr ftBase fileTable cabDesc.directoryCount directories
                    cabDesc.fileCount with
            | .error e => .error e
            | .ok files =>
              match parseFileGroups hdr common.cabDescriptorOffset
                      cabDesc.fileGroupOffsets with
              | .error e => .error e
              | .ok groups =>
                .ok ⟨common, cabDesc, ftBase, fileTable, directories, files, groups⟩

/-! ## Chunked Decompressor

`ISCabinet._extract_compressed` reads from the seekable cab file, modelled
as a byte list plus an explicit read position (seek = choosing the start
position; `read(n)` returns up to `n` bytes and never fails).  The zlib raw
inflater and the md5 accumulator are abstracted as function parameters. -/

/-- Errors raised by `_extract_compressed` (all Python `IOError`). -/
inductive ExtErr where
  | truncatedSize
  | truncatedData
  | decompressFailed
deriving DecidableEq, Repr

/-- Non-fatal warnings printed after the chunk loop. -/
inductive Warn where
  | sizeMismatch
  | md5Mismatch
deriving DecidableEq, Repr

/-- `struct.unpack('<H', sizeBytes)` on an exactly-2-byte read. -/
def leU16 (l : List Nat) : Nat := l.getD 0 0 + 256 * l.getD 1 0

/-- The `while total_written < fd.expanded_size` chunk loop of
`_extract_compressed`.  Returns the decompressed output, the final
`total_written`, and the final `total_comp_read`. -/
def extractLoop (inflate : List Nat → Option (List Nat)) (expandedSize : Nat)
    (data : List Nat) (pos written : Nat) (acc : List Nat) (compRead : Nat) :
    Except ExtErr (List Nat × Nat × Nat) :=
  if written < expandedSize then
    if h2 : ((data.drop pos).take 2).length < 2 then
      .error .truncatedSize
    else
      let chunkSize := leU16 ((data.drop pos).take 2)
      if hz : chunkSize = 0 then
        .ok (acc, written, compRead + 2)
      else
        if hc : ((data.drop (pos + 2)).take chunkSize).length < chunkSize then
          .error .truncatedData
        else
          match inflate ((data.drop (pos + 2)).take chunkSize) with
          | none => .error .decompressFailed
          | some dec =>
            extractLoop inflate expandedSize data (pos + 2 + chunkSize)
              (written + dec.length) (acc ++ dec) (compRead + 2 + chunkSize)
  else
    .ok (acc, written, compRead)
termination_by data.length - pos
decreasing_by
  simp only [List.length_take, List.length_drop] at h2 hc
  omega

/-- Result of a successful `_extract_compressed` call: bytes written to the
output file, the cumulative written count, the compressed bytes consumed,
and the warnings printed after the loop (in program order). -/
structure ExtractResult where
  out : List Nat
  written : Nat
  compRead : Nat
  warnings : List Warn
deriving DecidableEq, Repr

/-- The all-zero 16-byte checksum (`b'\x00' * 16`). -/
def zeros16 : List Nat := List.replicate 16 0

/-- `ISCabinet._extract_compressed`: seek to `fd.data_offset`, run the
chunk loop, then perform the non-fatal size and md5 checks. -/
def extractCompressed (inflate : List Nat → Option (List Nat))
    (md5fn : List Nat → List Nat) (fd : FileDescriptor) (data : List Nat) :
    Except ExtErr ExtractResult :=
  match extractLoop inflate fd.expandedSize data fd.dataOffset 0 [] 0 with
  | .error e => .error e
  | .ok (out, written, compRead) =>
    let sizeW : List Warn := if written ≠ fd.expandedSize then [.sizeMismatch] else []
    let md5W : List Warn :=
      if fd.md5 ≠ zeros16 ∧ md5fn out ≠ fd.md5 then [.md5Mismatch] else []
    .ok ⟨out, written, compRead, sizeW ++ md5W⟩

/-! ## Loose-File Resolver

POSIX path arithmetic (`os.path.join`, `os.path.dirname`,
`os.path.basename` with `os.sep = '/'`) and a finite file-system
abstraction standing for `os.path.isfile` / `os.path.isdir` /
`os.listdir`. -/

/-- `dir_name.replace('\\', os.sep)` with `os.sep = '/'`. -/
def normalizeSep (s : String) : String :=
  ⟨s.data.map (fun c => if c = '\\' then '/' else c)⟩

/-- `posixpath.join(a, b)` for two components: `b` wins when absolute,
and a separator is inserted unless `a` is empty or already ends in one. -/
def pjoin (a b : String) : String :=
  if b.data.head? = some '/' then b
  else if a = "" ∨ a.data.getLast? = some '/' then a ++ b
  else a ++ "/" ++ b

/-- Characters after the last `'/'` (the `tail` of `posixpath.split`). -/
def basenameL (cs : List Char) : List Char :=
  (cs.reverse.takeWhile (fun c => c ≠ '/')).reverse

/-- Characters up to and including the last `'/'` (the raw `head` of
`posixpath.split`, before trailing-slash stripping). -/
def headPartL (cs : List Char) : List Char :=
  cs.take (cs.length - (basenameL cs).length)

/-- `posixpath.basename`. -/
def basename (s : String) : String := ⟨basenameL s.data⟩

/-- `posixpath.dirname`: the raw head with trailing slashes stripped,
unless it is empty or consists only of slashes. -/
def dirname (s : String) : String :=
  let head := headPartL s.data
  if head ≠ [] ∧ head.any (fun c => c ≠ '/') then
    ⟨(head.reverse.dropWhile (fun c => c = '/')).reverse⟩
  else ⟨head⟩

/-- `str.lower()` (ASCII case folding, as used on the file names here). -/
def lowerStr (s : String) : String := ⟨s.data.map Char.toLower⟩

/-- Finite model of the file-system queries `_find_loose_file` makes. -/
structure FS where
  isFile : String → Bool
  isDir : String → Bool
  entries : String → List String

/-- The candidate path `os.path.join(setup_dir, dir.replace('\\', sep), name)`
(or `join(setup_dir, name)` when the descriptor has no directory). -/
def looseCandidate (setupDir : String) (fd : FileDescriptor) : String :=
  if fd.directory ≠ "" then
    pjoin (pjoin setupDir (normalizeSep fd.directory)) fd.name
  else pjoin setupDir fd.name

/-- `ISCabinet._find_loose_file`: exact path first, then the first
case-insensitive match among the parent directory's entries, else `none`. -/
def findLooseFile (fs : FS) (setupDir : String) (fd : FileDescriptor) :
    Option String :=
  let candidate := looseCandidate setupDir fd
  if fs.isFile candidate then some candidate
  else
    let searchDir := dirname candidate
    let targetName := lowerStr (basename candidate)
    if fs.isDir searchDir then
      match (fs.entries searchDir).find? (fun e => lowerStr e == targetName) with
      | some e => some (pjoin searchDir e)
      | none => none
    else none

/-! ## Extraction Driver

`ISCabinet.extract_all`.  The per-file effects — `os.makedirs`,
`_extract_compressed`, `_find_loose_file`, `os.path.isfile`, `_copy_file`
— are abstracted as fallible function parameters (`Except Unit` models
"may raise").  Only the calls the Python wraps in `try/except` have their
errors converted into the error count; the rest propagate. -/

/-- Per-run counters reported by `extract_all`. -/
structure RunCounts where
  extracted : Nat
  looseCopied : Nat
  looseMissing : Nat
  skipped : Nat
  errors : Nat
deriving DecidableEq, Repr

/-- `rel_path` as built in the `extract_all` loop body. -/
def relOutPath (fd : FileDescriptor) : String :=
  if fd.directory ≠ "" then pjoin (normalizeSep fd.directory) fd.name
  else fd.name

/-- One iteration of the `for fd in self.files` loop of `extract_all`.
`mkdirs` and `findLoose` are called outside any `try`, so their errors
abort the whole run; `extractC` and `copy` are wrapped in `try/except`
and only bump the error count. -/
def extractStep (mkdirs : String → Except Unit Unit)
    (extractC : FileDescriptor → Except Unit Unit)
    (findLoose : FileDescriptor → Except Unit (Option String))
    (isFile : String → Bool)
    (copy : String → String → Except Unit Unit)
    (includeLoose : Bool) (outputDir : String)
    (c : RunCounts) (fd : FileDescriptor) : Except Unit RunCounts :=
  if fd.isInvalid then .ok { c with skipped := c.skipped + 1 }
  else
    let outPath := pjoin outputDir (relOutPath fd)
    match mkdirs (dirname outPath) with
    | .error e => .error e
    | .ok _ =>
      if fd.isCompressed then
        match extractC fd with
        | .ok _ => .ok { c with extracted := c.extracted + 1 }
        | .error _ => .ok { c with errors := c.errors + 1 }
      else if includeLoose then
        match findLoose fd with
        | .error e => .error e
        | .ok (some p) =>
          if isFile p then
            match copy p outPath with
            | .ok _ => .ok { c with looseCopied := c.looseCopied + 1 }
            | .error _ => .ok { c with errors := c.errors + 1 }
          else .ok { c with looseMissing := c.looseMissing + 1 }
        | .ok none => .ok { c with looseMissing := c.looseMissing + 1 }
      else .ok { c with skipped := c.skipped + 1 }

/-- `ISCabinet.extract_all`: fold the per-file step over the catalog's
file list, starting from zeroed counters. -/
def extractAll (mkdirs : String → Except Unit Unit)
    (extractC : FileDescriptor → Except Unit Unit)
    (findLoose : FileDescriptor → Except Unit (Option String))
    (isFile : String → Bool)
    (copy : String → String → Except Unit Unit)
    (includeLoose : Bool) (outputDir : String)
    (files : List FileDescriptor) : Except Unit RunCounts :=
  files.foldlM (extractStep mkdirs extractC findLoose isFile copy includeLoose outputDir)
    ⟨0, 0, 0, 0, 0⟩

/-- Total of all five counters (each processed descriptor lands in
exactly one). -/
def RunCounts.total (c : RunCounts) : Nat :=
  c.extracted + c.looseCopied + c.looseMissing + c.skipped + c.errors

/-! ## Helper lemmas -/

/-- `findZeroFrom` finds an index exactly when the suffix contains a zero. -/
theorem findZeroFrom_isSome (l : List Nat) :
    ∀ i, (findZeroFrom l i).isSome = true ↔ 0 ∈ l := by
  induction l with
  | nil => intro i; simp [findZeroFrom]
  | cons b rest ih =>
    intro i
    by_cases hb : b = 0
    · subst hb; simp [findZeroFrom]
    · simp [findZeroFrom, hb, ih, Ne.symm hb]

/-- `mapM` over `Except` preserves length on success. -/
theorem mapM_ok_length {α β ε : Type} (f : α → Except ε β) :
    ∀ (l : List α) (r : List β), l.mapM f = .ok r → r.length = l.length := by
  intro l
  induction l with
  | nil =>
    intro r h
    simp only [List.mapM_nil] at h
    cases h
    rfl
  | cons a t ih =>
    intro r h
    rw [List.mapM_cons] at h
    cases hfa : f a with
    | error e => rw [hfa] at h; cases h
    | ok b =>
      rw [hfa] at h
      cases hmt : t.mapM f with
      | error e => rw [hmt] at h; cases h
      | ok bs =>
        rw [hmt] at h
        cases h
        simp [ih bs hmt]

/-- Inversion for `CommonHeader.parse?`: a parsed header's fields are the
five little-endian dwords at offsets 0, 4, 8, 12, 16. -/
theorem CommonHeader.parse?_inv {d : List Nat} {c : CommonHeader}
    (h : CommonHeader.parse? d = some c) :
    readU32LE? d 0 = some c.signature ∧ readU32LE? d 4 = some c.version := by
  unfold CommonHeader.parse? at h
  split at h
  next s v vi off sz h0 h4 h8 h12 h16 =>
    injection h with h'
    subst h'
    exact ⟨h0, h4⟩
  next => cases h

/-! ## Claim theorems -/

/-- C10: `_read_string` succeeds exactly when a zero terminator exists at
or after the given offset before the end of the header buffer; decoding
itself (ASCII with replacement) is total, so the only failure case is the
missing terminator. -/
theorem readString_terminator_iff (hdr : List Nat) (ftBase relOff : Nat) :
    ((readString hdr ftBase relOff).isOk = true ↔
        0 ∈ hdr.drop (ftBase + relOff)) ∧
    (readString hdr ftBase relOff = .error HdrErr.noTerminator ∨
        (readString hdr ftBase relOff).isOk = true) := by
  have hiff := findZeroFrom_isSome (hdr.drop (ftBase + relOff)) (ftBase + relOff)
  constructor
  · cases h : findZeroFrom (hdr.drop (ftBase + relOff)) (ftBase + relOff) with
    | none =>
      rw [h] at hiff
      simp only [Option.isSome_none, Bool.false_eq_true, false_iff] at hiff
      simp [readString, h, hiff, Except.isOk, Except.toBool]
    | some e =>
      rw [h] at hiff
      simp only [Option.isSome_some, true_iff] at hiff
      simp [readString, h, hiff, Except.isOk, Except.toBool]
  · cases h : findZeroFrom (hdr.drop (ftBase + relOff)) (ftBase + relOff) with
    | none => left; simp [readString, h]
    | some e => right; simp [readString, h, Except.isOk, Except.toBool]

/-- C10 witness: a buffer holding `"A\0"` decodes successfully from
offset 0. -/
theorem readString_terminator_iff_witness :
    (readString [65, 0] 0 0).isOk = true :=
  (readString_terminator_iff [65, 0] 0 0).1.mpr (by decide)

/-- C4: whenever the first four header bytes (read as a little-endian
dword, exactly as `ISCabinet.__init__` unpacks them) differ from
`CAB_SIGNATURE`, catalog construction fails with the signature error, so
no catalog is produced. -/
theorem bad_signature_fatal (hdr : List Nat) (c : CommonHeader)
    (h : CommonHeader.parse? hdr = some c) :
    readU32LE? hdr 0 = some c.signature ∧
    (c.signature ≠ CAB_SIGNATURE →
        catalogInit hdr = .error HdrErr.badSignature) := by
  refine ⟨(CommonHeader.parse?_inv h).1, ?_⟩
  intro hs
  unfold catalogInit
  simp only [h]
  rw [if_pos hs]

/-- C4 witness: the 20-byte all-zero buffer has signature 0 and is
rejected. -/
theorem bad_signature_fatal_witness :
    catalogInit (List.replicate 20 0) = .error HdrErr.badSignature :=
  (bad_signature_fatal (List.replicate 20 0)
      ⟨0, 0, 0, 0, 0⟩ (by decide)).2 (by decide)

/-- C8 counterexample: a parsed header with version dword `0x10000000` has
reported major version 0 (code computes bits 12-15), while the spec's
"top 4 bits of the upper 16 bits" (bits 28-31) would give 1. -/
theorem majorVersion_not_top_nibble :
    (CommonHeader.parse?
        ([0x49, 0x53, 0x63, 0x28, 0, 0, 0, 0x10] ++
          List.replicate 12 0)).map CommonHeader.majorVersion = some 0 ∧
    (CommonHeader.parse?
        ([0x49, 0x53, 0x63, 0x28, 0, 0, 0, 0x10] ++
          List.replicate 12 0)).map CommonHeader.specMajorVersion = some 1 := by
  constructor <;> decide

/-- C8 (amended): for every parsed CommonHeader, the reported major
version equals bits 12-15 of the 32-bit version dword read at header
offset 4 — the top 4 bits of the LOWER 16 bits, not of the upper 16. -/
theorem majorVersion_bits12_15 (hdr : List Nat) (c : CommonHeader)
    (h : CommonHeader.parse? hdr = some c) :
    ∃ v, readU32LE? hdr 4 = some v ∧
      c.majorVersion = (v >>> 12) &&& 0xF :=
  ⟨c.version, (CommonHeader.parse?_inv h).2, rfl⟩

/-- C8 witness: the all-zero 20-byte header parses with major version 0,
matching bits 12-15 of its version dword 0. -/
theorem majorVersion_bits12_15_witness :
    CommonHeader.majorVersion ⟨0, 0, 0, 0, 0⟩ = (0 >>> 12) &&& 0xF := by
  obtain ⟨v, hv, hmv⟩ :=
    majorVersion_bits12_15 (List.replicate 20 0) ⟨0, 0, 0, 0, 0⟩ (by decide)
  have h0 : readU32LE? (List.replicate 20 0) 4 = some 0 := by decide
  rw [h0] at hv
  injection hv with h
  rw [← h] at hmv
  exact hmv

/-- C5: a file descriptor parsed by the catalog pass gets directory `""`
(root-relative) when its `directory_index` is out of range of the
directory list of the same pass, and the directory at that index
otherwise; success of the parse does not depend on the directory list at
all, and the directory list of a successful pass has exactly
`directory_count` entries. -/
theorem directory_index_resolution (hdr : List Nat) (ftBase : Nat)
    (fileTable : List Nat) (dirCount : Nat) (directories : List String)
    (i : Nat) (fd : FileDescriptor)
    (h : parseOneFile hdr ftBase fileTable dirCount directories i = .ok fd) :
    (directories.length ≤ fd.directoryIndex → fd.directory = "") ∧
    (fd.directoryIndex < directories.length →
        fd.directory = directories.getD fd.directoryIndex "") ∧
    ((parseOneFile hdr ftBase fileTable dirCount directories i).isOk =
        (parseOneFile hdr ftBase fileTable dirCount [] i).isOk) ∧
    (∀ ds, parseDirectories hdr ftBase fileTable dirCount = .ok ds →
        ds.length = dirCount) := by
  refine ⟨?_, ?_, ?_, ?_⟩
  · intro hge
    unfold parseOneFile at h
    split at h
    · cases h
    next fd0 hp =>
      split at h
      · cases h
      next nm hnm =>
        injection h with h'
        subst h'
        simp only at hge ⊢
        unfold dirFor
        rw [if_neg (by omega)]
  · intro hlt
    unfold parseOneFile at h
    split at h
    · cases h
    next fd0 hp =>
      split at h
      · cases h
      next nm hnm =>
        injection h with h'
        subst h'
        simp only at hlt ⊢
        unfold dirFor
        rw [if_pos hlt]
  · unfold parseOneFile
    split
    · rfl
    next fd0 hp =>
      split
      · rfl
      · rfl
  · intro ds hds
    have := mapM_ok_length _ _ _ hds
    simpa using this

/-- C5 witness: a concrete one-file header whose descriptor names
directory index 0 against an empty directory list resolves to the root. -/
theorem directory_index_resolution_witness :
    ({ nameOffset := 58, directoryIndex := 0, flags := 0, expandedSize := 0,
       compressedSize := 0, dataOffset := 0, md5 := List.replicate 16 0,
       name := "A", directory := "", index := 0 } : FileDescriptor).directory
      = "" :=
  (directory_index_resolution
      ([58, 0, 0, 0] ++ List.replicate 54 0 ++ [65, 0]) 0 [0] 0 [] 0
      { nameOffset := 58, directoryIndex := 0, flags := 0, expandedSize := 0,
        compressedSize := 0, dataOffset := 0, md5 := List.replicate 16 0,
        name := "A", directory := "", index := 0 }
      (by rfl)).1 (by decide)

/-- Chunk loop, terminal case: the target size has been reached (also
covers `expanded_size = 0`, where the loop body never runs). -/
theorem extractLoop_done (inflate : List Nat → Option (List Nat))
    (expandedSize : Nat) (data : List Nat) (pos written : Nat)
    (acc : List Nat) (compRead : Nat) (h : expandedSize ≤ written) :
    extractLoop inflate expandedSize data pos written acc compRead =
      .ok (acc, written, compRead) := by
  rw [extractLoop]
  rw [if_neg (by omega)]

/-- Chunk loop: fewer than 2 bytes remain where a chunk length is needed. -/
theorem extractLoop_short (inflate : List Nat → Option (List Nat))
    (expandedSize : Nat) (data : List Nat) (pos written : Nat)
    (acc : List Nat) (compRead : Nat) (hw : written < expandedSize)
    (h2 : ((data.drop pos).take 2).length < 2) :
    extractLoop inflate expandedSize data pos written acc compRead =
      .error .truncatedSize := by
  rw [extractLoop]
  rw [if_pos hw, dif_pos h2]

/-- Chunk loop: a zero chunk length stops the loop normally. -/
theorem extractLoop_zeroChunk (inflate : List Nat → Option (List Nat))
    (expandedSize : Nat) (data : List Nat) (pos written : Nat)
    (acc : List Nat) (compRead : Nat) (hw : written < expandedSize)
    (hz : (data.drop pos).take 2 = [0, 0]) :
    extractLoop inflate expandedSize data pos written acc compRead =
      .ok (acc, written, compRead + 2) := by
  rw [extractLoop]
  rw [if_pos hw]
  rw [dif_neg (by rw [hz]; decide)]
  simp only [hz]
  norm_num [leU16]

/-- C9: a file descriptor with `expanded_size = 0` makes the chunked
decompressor read nothing from the data source (zero compressed bytes
consumed, not even a chunk length), produce empty output, raise no error,
and emit no size warning — whatever `data_offset` says. -/
theorem zero_expanded_reads_nothing (inflate : List Nat → Option (List Nat))
    (md5fn : List Nat → List Nat) (fd : FileDescriptor) (data : List Nat)
    (h : fd.expandedSize = 0) :
    ∃ r, extractCompressed inflate md5fn fd data = .ok r ∧
      r.out = [] ∧ r.compRead = 0 ∧ Warn.sizeMismatch ∉ r.warnings := by
  unfold extractCompressed
  rw [extractLoop_done inflate fd.expandedSize data fd.dataOffset 0 [] 0 (by omega)]
  refine ⟨_, rfl, rfl, rfl, ?_⟩
  simp only [h]
  rw [if_neg (by omega)]
  by_cases hc : fd.md5 ≠ zeros16 ∧ md5fn [] ≠ fd.md5
  · rw [if_pos hc]; decide
  · rw [if_neg hc]; decide

/-- C9 witness: `expanded_size = 0` with an empty cab and a wild
`data_offset` still succeeds reading nothing. -/
theorem zero_expanded_reads_nothing_witness :
    (extractCompressed (fun _ => none) (fun _ => [])
        { nameOffset := 0, directoryIndex := 0, flags := 4, expandedSize := 0,
          compressedSize := 0, dataOffset := 12345,
          md5 := List.replicate 16 0 } []).isOk = true := by
  obtain ⟨r, hr, -, -, -⟩ := zero_expanded_reads_nothing (fun _ => none)
    (fun _ => [])
    { nameOffset := 0, directoryIndex := 0, flags := 4, expandedSize := 0,
      compressedSize := 0, dataOffset := 12345,
      md5 := List.replicate 16 0 } [] (by decide)
  rw [hr]
  rfl

/-- C3: a chunk length of 0 terminates the loop as a success, even while
the cumulative written count is still below `expanded_size`; at the
`_extract_compressed` level the run is not aborted and at most the
non-fatal size-mismatch warning is emitted. -/
theorem zero_chunk_terminates_ok (inflate : List Nat → Option (List Nat))
    (md5fn : List Nat → List Nat) (fd : FileDescriptor) (data : List Nat)
    (expandedSize pos written : Nat) (acc : List Nat) (compRead : Nat) :
    (written < expandedSize → (data.drop pos).take 2 = [0, 0] →
      extractLoop inflate expandedSize data pos written acc compRead =
        .ok (acc, written, compRead + 2)) ∧
    (0 < fd.expandedSize → (data.drop fd.dataOffset).take 2 = [0, 0] →
      ∃ r, extractCompressed inflate md5fn fd data = .ok r ∧
        r.out = [] ∧ Warn.sizeMismatch ∈ r.warnings) := by
  constructor
  · intro hw hz
    exact extractLoop_zeroChunk inflate expandedSize data pos written acc compRead hw hz
  · intro hpos hz
    unfold extractCompressed
    rw [extractLoop_zeroChunk inflate fd.expandedSize data fd.dataOffset 0 [] 0 hpos hz]
    refine ⟨_, rfl, rfl, ?_⟩
    rw [if_pos (by omega)]
    simp

/-- C3 witness: expanded size 7 but an immediate zero chunk length ends
the extraction successfully with a size warning. -/
theorem zero_chunk_terminates_ok_witness :
    (extractCompressed (fun _ => none) (fun _ => [])
        { nameOffset := 0, directoryIndex := 0, flags := 4, expandedSize := 7,
          compressedSize := 0, dataOffset := 0,
          md5 := List.replicate 16 0 } [0, 0]).isOk = true := by
  obtain ⟨r, hr, -, -⟩ := (zero_chunk_terminates_ok (fun _ => none) (fun _ => [])
      { nameOffset := 0, directoryIndex := 0, flags := 4, expandedSize := 7,
        compressedSize := 0, dataOffset := 0, md5 := List.replicate 16 0 }
      [0, 0] 0 0 0 [] 0).2 (by decide) (by decide)
  rw [hr]
  rfl

/-- C2 counterexample: with `expanded_size = 5` and an empty data source,
the chunk-length read comes back short and `_extract_compressed` raises
`IOError` (modelled `.error .truncatedSize`) — it does NOT stop quietly
the way a zero chunk length does. -/
theorem truncated_length_is_error :
    extractCompressed (fun _ => none) (fun _ => [])
        { nameOffset := 0, directoryIndex := 0, flags := 4, expandedSize := 5,
          compressedSize := 0, dataOffset := 0,
          md5 := List.replicate 16 0 } [] = .error .truncatedSize := by
  unfold extractCompressed
  rw [extractLoop_short (fun _ => none) 5 [] 0 0 [] 0 (by decide) (by decide)]

/-- C2 (amended): when the data source ends before a full 2-byte chunk
length can be read while more output is still expected, decompression
fails with the truncated-stream error (unlike a zero chunk length, which
stops the loop normally). -/
theorem truncated_length_raises (inflate : List Nat → Option (List Nat))
    (md5fn : List Nat → List Nat) (fd : FileDescriptor) (data : List Nat)
    (expandedSize pos written : Nat) (acc : List Nat) (compRead : Nat) :
    (written < expandedSize → ((data.drop pos).take 2).length < 2 →
      extractLoop inflate expandedSize data pos written acc compRead =
        .error .truncatedSize) ∧
    (0 < fd.expandedSize → (data.drop fd.dataOffset).length < 2 →
      extractCompressed inflate md5fn fd data = .error .truncatedSize) := by
  constructor
  · intro hw h2
    exact extractLoop_short inflate expandedSize data pos written acc compRead hw h2
  · intro hpos hlen
    unfold extractCompressed
    rw [extractLoop_short inflate fd.expandedSize data fd.dataOffset 0 [] 0 hpos
        (by simp only [List.length_take]; omega)]

/-- C2 witness: one expected byte, one-byte cab remainder: truncation
error. -/
theorem truncated_length_raises_witness :
    extractCompressed (fun _ => some []) (fun _ => List.replicate 16 0)
        { nameOffset := 0, directoryIndex := 0, flags := 4, expandedSize := 1,
          compressedSize := 0, dataOffset := 0,
          md5 := List.replicate 16 0 } [9] = .error .truncatedSize :=
  (truncated_length_raises (fun _ => some []) (fun _ => List.replicate 16 0)
      { nameOffset := 0, directoryIndex := 0, flags := 4, expandedSize := 1,
        compressedSize := 0, dataOffset := 0, md5 := List.replicate 16 0 }
      [9] 0 0 0 [] 0).2 (by decide) (by decide)

/-- C6: an all-zero stored checksum is never compared, so no checksum
warning can appear in any successful extraction, whatever was
decompressed; a non-all-zero stored checksum that differs from the
accumulated one yields the non-fatal checksum warning on a run that still
succeeds. -/
theorem checksum_warning_policy (inflate : List Nat → Option (List Nat))
    (md5fn : List Nat → List Nat) (fd : FileDescriptor) (data : List Nat) :
    (fd.md5 = zeros16 → ∀ r, extractCompressed inflate md5fn fd data = .ok r →
        Warn.md5Mismatch ∉ r.warnings) ∧
    (fd.md5 ≠ zeros16 → ∀ out written compRead,
        extractLoop inflate fd.expandedSize data fd.dataOffset 0 [] 0 =
          .ok (out, written, compRead) →
        md5fn out ≠ fd.md5 →
        ∃ r, extractCompressed inflate md5fn fd data = .ok r ∧
          Warn.md5Mismatch ∈ r.warnings) := by
  constructor
  · intro hz r hr
    unfold extractCompressed at hr
    cases hl : extractLoop inflate fd.expandedSize data fd.dataOffset 0 [] 0 with
    | error e => rw [hl] at hr; cases hr
    | ok v =>
      obtain ⟨out, written, compRead⟩ := v
      rw [hl] at hr
      injection hr with hr'
      subst hr'
      have hmd : (if fd.md5 ≠ zeros16 ∧ md5fn out ≠ fd.md5
          then [Warn.md5Mismatch] else []) = [] := if_neg (by simp [hz])
      simp only [hmd, List.append_nil]
      split <;> simp
  · intro hnz out written compRead hl hne
    unfold extractCompressed
    rw [hl]
    refine ⟨_, rfl, ?_⟩
    have hmd : (if fd.md5 ≠ zeros16 ∧ md5fn out ≠ fd.md5
        then [Warn.md5Mismatch] else []) = [Warn.md5Mismatch] :=
      if_pos ⟨hnz, hne⟩
    simp only [hmd]
    simp

/-- C6 witness: a non-zero stored checksum over an empty extraction with a
disagreeing accumulator produces the warning on a successful run. -/
theorem checksum_warning_policy_witness :
    (extractCompressed (fun _ => none) (fun _ => List.replicate 16 0)
        { nameOffset := 0, directoryIndex := 0, flags := 4, expandedSize := 0,
          compressedSize := 0, dataOffset := 0,
          md5 := List.replicate 16 1 } []).isOk = true := by
  obtain ⟨r, hr, -⟩ :=
    (checksum_warning_policy (fun _ => none) (fun _ => List.replicate 16 0)
        { nameOffset := 0, directoryIndex := 0, flags := 4, expandedSize := 0,
          compressedSize := 0, dataOffset := 0, md5 := List.replicate 16 1 }
        []).2 (by decide)
      [] 0 0 (extractLoop_done (fun _ => none) 0 [] 0 0 [] 0 (by decide))
      (by decide)
  rw [hr]
  rfl

/-- C7: loose-file resolution returns the exact candidate path when it is
a file; otherwise it returns the first entry of the candidate's parent
directory whose name matches the candidate's base name case-insensitively,
and not-found when there is no such entry or the parent directory does not
exist. -/
theorem findLooseFile_resolution (fs : FS) (setupDir : String)
    (fd : FileDescriptor) :
    (fs.isFile (looseCandidate setupDir fd) = true →
      findLooseFile fs setupDir fd = some (looseCandidate setupDir fd)) ∧
    (fs.isFile (looseCandidate setupDir fd) = false →
      fs.isDir (dirname (looseCandidate setupDir fd)) = true →
      ∀ e, (fs.entries (dirname (looseCandidate setupDir fd))).find?
          (fun x => lowerStr x == lowerStr (basename (looseCandidate setupDir fd)))
            = some e →
        findLooseFile fs setupDir fd =
          some (pjoin (dirname (looseCandidate setupDir fd)) e)) ∧
    (fs.isFile (looseCandidate setupDir fd) = false →
      fs.isDir (dirname (looseCandidate setupDir fd)) = false →
      findLooseFile fs setupDir fd = none) ∧
    (fs.isFile (looseCandidate setupDir fd) = false →
      fs.isDir (dirname (looseCandidate setupDir fd)) = true →
      (fs.entries (dirname (looseCandidate setupDir fd))).find?
          (fun x => lowerStr x == lowerStr (basename (looseCandidate setupDir fd)))
            = none →
      findLooseFile fs setupDir fd = none) := by
  refine ⟨?_, ?_, ?_, ?_⟩
  · intro h1
    simp [findLooseFile, h1]
  · intro h1 h2 e he
    simp [findLooseFile, h1, h2, he]
  · intro h1 h2
    simp [findLooseFile, h1, h2]
  · intro h1 h2 he
    simp [findLooseFile, h1, h2, he]

/-- File system for the C7 witness: no exact-case file, one directory
`setup` whose sole entry is `readme.txt`. -/
def looseFS : FS :=
  { isFile := fun _ => false,
    isDir := fun p => p == "setup",
    entries := fun p => if p == "setup" then ["readme.txt"] else [] }

/-- Descriptor for the C7 witness: names `README.TXT` with no directory. -/
def looseREADME : FileDescriptor :=
  { nameOffset := 0, directoryIndex := 0, flags := 0, expandedSize := 0,
    compressedSize := 0, dataOffset := 0, md5 := List.replicate 16 0,
    name := "README.TXT" }

/-- C7 witness: a descriptor naming `README.TXT` resolves to the on-disk
`readme.txt` in the same directory. -/
theorem findLooseFile_resolution_witness :
    findLooseFile looseFS "setup" looseREADME = some "setup/readme.txt" := by
  have h := (findLooseFile_resolution looseFS "setup" looseREADME).2.1
    (by decide) (by decide) "readme.txt" (by decide)
  rw [h]
  decide

/-! ## Extraction-driver claims -/

/-- A loose (neither compressed nor invalid) descriptor used in the
driver theorems. -/
def looseOnlyFD : FileDescriptor :=
  { nameOffset := 0, directoryIndex := 0, flags := 0, expandedSize := 0,
    compressedSize := 0, dataOffset := 0, md5 := List.replicate 16 0,
    name := "a.txt" }

/-- C1 counterexample: a failure while locating a loose file
(`_find_loose_file` is called outside every `try` block) is NOT caught:
the run aborts with the exception, counts nothing, and never reaches the
second descriptor. -/
theorem extractAll_uncaught_findLoose_aborts :
    extractAll (fun _ => .ok ()) (fun _ => .ok ()) (fun _ => .error ())
        (fun _ => true) (fun _ _ => .ok ()) true "out"
        [looseOnlyFD, looseOnlyFD] = .error () := by
  rfl

/-- One driver step always succeeds and accounts the descriptor in exactly
one counter, as long as the operations outside the `try` blocks
(`os.makedirs` and `_find_loose_file`) do not raise; failures of the
compressed extraction and of the copy are absorbed into the error count. -/
theorem extractStep_total
    (mkdirs : String → Except Unit Unit)
    (extractC : FileDescriptor → Except Unit Unit)
    (findLoose : FileDescriptor → Except Unit (Option String))
    (isFile : String → Bool) (copy : String → String → Except Unit Unit)
    (includeLoose : Bool) (outputDir : String)
    (hm : ∀ p, mkdirs p = .ok ()) (hf : ∀ g, (findLoose g).isOk = true)
    (c : RunCounts) (fd : FileDescriptor) :
    ∃ c1, extractStep mkdirs extractC findLoose isFile copy includeLoose
        outputDir c fd = .ok c1 ∧ c1.total = c.total + 1 := by
  unfold extractStep
  by_cases hi : fd.isInvalid = true
  · rw [if_pos hi]
    exact ⟨_, rfl, by simp [RunCounts.total]; omega⟩
  · rw [if_neg hi]
    simp only [hm]
    by_cases hc : fd.isCompressed = true
    · rw [if_pos hc]
      cases hx : extractC fd with
      | ok u =>
        exact ⟨_, rfl, by simp [RunCounts.total]; omega⟩
      | error u =>
        exact ⟨_, rfl, by simp [RunCounts.total]; omega⟩
    · rw [if_neg hc]
      by_cases il : includeLoose = true
      · rw [if_pos il]
        have hok := hf fd
        cases hfl : findLoose fd with
        | error e => rw [hfl] at hok; cases hok
        | ok o =>
          cases o with
          | none => exact ⟨_, rfl, by simp [RunCounts.total]; omega⟩
          | some p =>
            by_cases hp : isFile p = true
            · cases hcp : copy p (pjoin outputDir (relOutPath fd)) with
              | ok u =>
                refine ⟨{ c with looseCopied := c.looseCopied + 1 }, ?_, ?_⟩
                · simp [hp, hcp]
                · simp [RunCounts.total]; omega
              | error u =>
                refine ⟨{ c with errors := c.errors + 1 }, ?_, ?_⟩
                · simp [hp, hcp]
                · simp [RunCounts.total]; omega
            · refine ⟨{ c with looseMissing := c.looseMissing + 1 }, ?_, ?_⟩
              · simp [hp]
              · simp [RunCounts.total]; omega
      · rw [if_neg il]
        exact ⟨_, rfl, by simp [RunCounts.total]; omega⟩

/-- C1 (amended): provided the two operations the Python calls outside any
`try` block — output-directory creation and loose-file lookup — do not
raise, `extract_all` completes a full pass over every descriptor and
reports counts in which each descriptor lands exactly once; failures of
the compressed-file extraction and of the loose-file copy are caught and
counted as errors rather than aborting. -/
theorem extractAll_completes_counts
    (mkdirs : String → Except Unit Unit)
    (extractC : FileDescriptor → Except Unit Unit)
    (findLoose : FileDescriptor → Except Unit (Option String))
    (isFile : String → Bool) (copy : String → String → Except Unit Unit)
    (includeLoose : Bool) (outputDir : String) (files : List FileDescriptor)
    (hm : ∀ p, mkdirs p = .ok ()) (hf : ∀ g, (findLoose g).isOk = true) :
    ∃ c, extractAll mkdirs extractC findLoose isFile copy includeLoose
        outputDir files = .ok c ∧ c.total = files.length := by
  suffices h : ∀ (fs : List FileDescriptor) (c0 : RunCounts),
      ∃ c, fs.foldlM (extractStep mkdirs extractC findLoose isFile copy
          includeLoose outputDir) c0 = .ok c ∧ c.total = c0.total + fs.length by
    obtain ⟨c, hc, ht⟩ := h files ⟨0, 0, 0, 0, 0⟩
    refine ⟨c, hc, ?_⟩
    rw [ht]
    simp [RunCounts.total]
  intro fs
  induction fs with
  | nil => intro c0; exact ⟨c0, rfl, by simp⟩
  | cons fd rest ih =>
    intro c0
    obtain ⟨c1, h1, ht1⟩ := extractStep_total mkdirs extractC findLoose isFile
      copy includeLoose outputDir hm hf c0 fd
    obtain ⟨c, hc, ht⟩ := ih c1
    refine ⟨c, ?_, by simp [ht, ht1]; omega⟩
    rw [List.foldlM_cons, h1]
    exact hc

/-- C1 witness: a one-descriptor run with benign operations completes
with one counted descriptor. -/
theorem extractAll_completes_counts_witness :
    (extractAll (fun _ => .ok ()) (fun _ => .ok ()) (fun _ => .ok none)
        (fun _ => true) (fun _ _ => .ok ()) true "out" [looseOnlyFD]).isOk
      = true := by
  obtain ⟨c, hc, -⟩ := extractAll_completes_counts (fun _ => .ok ())
    (fun _ => .ok ()) (fun _ => .ok none) (fun _ => true) (fun _ _ => .ok ())
    true "out" [looseOnlyFD] (fun _ => rfl) (fun _ => rfl)
  rw [hc]
  rfl

end ISCab
